import Mathlib

/-!
Verification of the RBAC auditor `kubectl-who-can`.

This file gives a shallow embedding of the program's core: the policy rule
matcher (`policy_rule_matcher.go`), the resource resolver
(`resource_resolver.go`), the namespace validator, the action builder
(`ActionFrom`) and the `WhoCan` orchestrator (`list.go`).  External
collaborators (the Kubernetes API transport, the REST mapper, the discovery
client) are abstracted as function-valued parameters: a listing call becomes
an `Except String` value, a self-subject-access-review becomes a function
returning `Except String Bool`, and so on.  Pure Go functions become Lean
functions over the same data.
-/

namespace KubectlWhoCan

/-- Wildcard verb sentinel, `rbac.VerbAll`. -/
def VerbAll : String := "*"

/-- Wildcard API group sentinel, `rbac.APIGroupAll`. -/
def APIGroupAll : String := "*"

/-- Wildcard resource sentinel, `rbac.ResourceAll`. -/
def ResourceAll : String := "*"

/-- The all-namespaces marker, `core.NamespaceAll` (the empty string). -/
def NamespaceAll : String := ""

/-- RoleRef kind referencing a `Role`. -/
def RoleKind : String := "Role"

/-- RoleRef kind referencing a `ClusterRole`. -/
def ClusterRoleKind : String := "ClusterRole"

/-- Embeds `rbac.PolicyRule`: verbs, API groups, resources (possibly
`resource/subresource` strings), resource names and non-resource URLs. -/
structure PolicyRule where
  verbs : List String := []
  apiGroups : List String := []
  resources : List String := []
  resourceNames : List String := []
  nonResourceURLs : List String := []
  deriving DecidableEq

/-- Embeds `schema.GroupResource`: an API group (possibly empty for the core group)
together with a plural resource name. -/
structure GroupResource where
  group : String := ""
  resource : String := ""
  deriving DecidableEq

/-- The user's query, `Action` in `list.go`.  The Go field `Namespace` is
called `ns` here because `namespace` is a Lean keyword. -/
structure Action where
  verb : String := ""
  resource : String := ""
  resourceName : String := ""
  subResource : String := ""
  nonResourceURL : String := ""
  ns : String := ""
  allNamespaces : Bool := false
  deriving DecidableEq

/-- Embeds `resolvedAction` in `list.go`: an `Action` together with the canonical
`GroupResource` obtained from the resolver. -/
structure ResolvedAction where
  action : Action
  gr : GroupResource := {}
  deriving DecidableEq

/-- Embeds `rbac.Role`: a named, namespaced collection of policy rules. -/
structure Role where
  name : String := ""
  rules : List PolicyRule := []
  deriving DecidableEq

/-- Embeds `rbac.ClusterRole`: a named, cluster-wide collection of policy rules. -/
structure ClusterRole where
  name : String := ""
  rules : List PolicyRule := []
  deriving DecidableEq

/-- Embeds `rbac.RoleRef`: the kind and name of the role a binding refers to. -/
structure RoleRef where
  kind : String := ""
  name : String := ""
  deriving DecidableEq

/-- Embeds `rbac.RoleBinding` (subjects are irrelevant to the checked claims and
are omitted; `ns` is the Go `Namespace` object-meta field). -/
structure RoleBinding where
  name : String := ""
  ns : String := ""
  roleRef : RoleRef := {}
  deriving DecidableEq

/-- Embeds `rbac.ClusterRoleBinding` (subjects omitted as for `RoleBinding`). -/
structure ClusterRoleBinding where
  name : String := ""
  roleRef : RoleRef := {}
  deriving DecidableEq

/-! ## Policy rule matcher (`policy_rule_matcher.go`) -/

/-- Embeds `matcher.matchesAPIGroup`: some rule group equals `"*"` or the action's
group. -/
def matchesAPIGroup (rule : PolicyRule) (actionGroup : String) : Bool :=
  rule.apiGroups.any fun group => group == APIGroupAll || group == actionGroup

/-- Embeds `matcher.matchesVerb`: some rule verb equals `"*"` or the action's verb. -/
def matchesVerb (rule : PolicyRule) (actionVerb : String) : Bool :=
  rule.verbs.any fun verb => verb == VerbAll || verb == actionVerb

/-- Embeds `matcher.matchesResource`: some rule resource equals `"*"` or the
needle. -/
def matchesResource (rule : PolicyRule) (actionResource : String) : Bool :=
  rule.resources.any fun resource => resource == ResourceAll || resource == actionResource

/-- Embeds `matcher.matchesResourceName`. -/
def matchesResourceName (rule : PolicyRule) (actionResourceName : String) : Bool :=
  if actionResourceName == "" && rule.resourceNames.isEmpty then true
  else if rule.resourceNames.isEmpty then true
  else rule.resourceNames.any fun name => name == actionResourceName

/-- Embeds `matcher.matchesNonResourceURL`: some rule URL equals the action URL
exactly. -/
def matchesNonResourceURL (rule : PolicyRule) (actionNonResourceURL : String) : Bool :=
  rule.nonResourceURLs.any fun url => url == actionNonResourceURL

/-- The local `resource` variable of `matcher.matches`: the plain resource,
or `resource/subResource` when the action carries a sub-resource. -/
def actionResource (action : Action) (gr : GroupResource) : String :=
  if action.subResource != "" then gr.resource ++ "/" ++ action.subResource else gr.resource

/-- Embeds `matcher.matches`: does the given `PolicyRule` match the action? -/
def ruleMatches (rule : PolicyRule) (action : Action) (gr : GroupResource) : Bool :=
  if action.nonResourceURL != "" then
    matchesVerb rule action.verb && matchesNonResourceURL rule action.nonResourceURL
  else
    matchesVerb rule action.verb &&
      matchesResource rule (actionResource action gr) &&
      matchesAPIGroup rule gr.group &&
      matchesResourceName rule action.resourceName

/-- Embeds `matcher.MatchesRole`: some rule of the role matches. -/
def MatchesRole (role : Role) (action : Action) (gr : GroupResource) : Bool :=
  role.rules.any fun rule => ruleMatches rule action gr

/-- Embeds `matcher.MatchesClusterRole`: some rule of the cluster role matches. -/
def MatchesClusterRole (role : ClusterRole) (action : Action) (gr : GroupResource) : Bool :=
  role.rules.any fun rule => ruleMatches rule action gr

/-! ## Matcher lemmas and claim theorems -/

/-- Characterisation of `matchesResourceName`: it accepts exactly when the
rule has no resource-name restriction or explicitly lists the action's
resource name (for an action without a name, only a rule listing the empty
string explicitly can match besides the unrestricted one). -/
theorem matchesResourceName_iff (rule : PolicyRule) (n : String) :
    matchesResourceName rule n = true ↔
      (rule.resourceNames = [] ∨ n ∈ rule.resourceNames) := by
  unfold matchesResourceName
  cases h : rule.resourceNames with
  | nil => simp [h]
  | cons a l =>
    simp [h, List.any_eq_true]
    rw [eq_comm]

/-- Rule of matcher-test scenario G: `get`/`list` on core `services`,
restricted to the resource name `nginx`. -/
def scenarioGRule : PolicyRule :=
  { verbs := ["get", "list"], apiGroups := [""], resources := ["services"],
    resourceNames := ["nginx"] }

/-- Action of matcher-test scenario G: `get` with no resource name. -/
def scenarioGAction : Action := { verb := "get" }

/-- The resolved group-resource for core `services`. -/
def servicesGR : GroupResource := { resource := "services" }

/-- C1, counterexample: scenario G of the matcher tests.  The action's verb,
API group and resource all match the rule and the action has no resource
name, yet the rule — whose `ResourceNames` list is the non-empty `[nginx]` —
does **not** match, contradicting the claim that a rule with a non-empty
resource-name list matches an action without a resource name. -/
theorem c1_counterexample :
    matchesVerb scenarioGRule scenarioGAction.verb = true ∧
    matchesAPIGroup scenarioGRule servicesGR.group = true ∧
    matchesResource scenarioGRule (actionResource scenarioGAction servicesGR) = true ∧
    scenarioGAction.resourceName = "" ∧
    scenarioGRule.resourceNames ≠ [] ∧
    ruleMatches scenarioGRule scenarioGAction servicesGR = false := by
  decide

/-- C1 (amended): for every rule and resource action whose verb, API group
and resource already match, the rule matches iff its `ResourceNames` list is
empty (unrestricted) or explicitly includes the action's resource name; in
particular an action without a resource name is matched only by a rule with
no resource-name restriction (or one explicitly listing the empty string). -/
theorem c1_resource_name_matching (rule : PolicyRule) (action : Action) (gr : GroupResource)
    (hurl : action.nonResourceURL = "")
    (hverb : matchesVerb rule action.verb = true)
    (hgroup : matchesAPIGroup rule gr.group = true)
    (hres : matchesResource rule (actionResource action gr) = true) :
    ruleMatches rule action gr = true ↔
      (rule.resourceNames = [] ∨ action.resourceName ∈ rule.resourceNames) := by
  unfold ruleMatches
  simp [hurl, hverb, hgroup, hres, matchesResourceName_iff]

/-- Rule of matcher-test scenario E: `get`/`list` on core `services`,
restricted to the resource names `mongodb` and `nginx`. -/
def scenarioERule : PolicyRule :=
  { verbs := ["get", "list"], apiGroups := [""], resources := ["services"],
    resourceNames := ["mongodb", "nginx"] }

/-- Action of matcher-test scenario E: `get` the service named `mongodb`. -/
def scenarioEAction : Action := { verb := "get", resourceName := "mongodb" }

/-- Witness for C1 (amended) at the data of matcher-test scenario E. -/
theorem c1_resource_name_matching_witness :
    ruleMatches scenarioERule scenarioEAction servicesGR = true ↔
      (scenarioERule.resourceNames = [] ∨
        scenarioEAction.resourceName ∈ scenarioERule.resourceNames) :=
  c1_resource_name_matching scenarioERule scenarioEAction servicesGR
    (by decide) (by decide) (by decide) (by decide)

/-- A string never equals itself with a slash and a suffix appended. -/
theorem self_ne_append_slash (a s : String) : a ≠ a ++ "/" ++ s := by
  intro h
  have hl := congrArg String.length h
  rw [String.length_append, String.length_append] at hl
  have h1 : ("/" : String).length = 1 := rfl
  omega

/-- C2: for every action carrying a sub-resource, a rule matches only if its
resources list contains `"*"` or the literal `resource/subResource`; a rule
whose resources list holds only the plain resource name never matches such
an action. -/
theorem c2_subresource_discipline (rule : PolicyRule) (action : Action) (gr : GroupResource)
    (hurl : action.nonResourceURL = "") (hsub : action.subResource ≠ "") :
    (ruleMatches rule action gr = true →
      ResourceAll ∈ rule.resources ∨
        (gr.resource ++ "/" ++ action.subResource) ∈ rule.resources) ∧
    (gr.resource ≠ ResourceAll → rule.resources = [gr.resource] →
      ruleMatches rule action gr = false) := by
  have hneedle : actionResource action gr = gr.resource ++ "/" ++ action.subResource := by
    simp [actionResource, hsub]
  constructor
  · intro h
    unfold ruleMatches at h
    simp only [hurl, bne_self_eq_false, Bool.false_eq_true, if_false, Bool.and_eq_true] at h
    obtain ⟨⟨⟨-, hres⟩, -⟩, -⟩ := h
    unfold matchesResource at hres
    simp only [List.any_eq_true, Bool.or_eq_true, beq_iff_eq] at hres
    obtain ⟨x, hx, hor⟩ := hres
    rw [hneedle] at hor
    rcases hor with hor | hor
    · exact Or.inl (hor ▸ hx)
    · exact Or.inr (hor ▸ hx)
  · intro hstar hres
    unfold ruleMatches
    simp only [hurl, bne_self_eq_false, Bool.false_eq_true, if_false]
    have : matchesResource rule (actionResource action gr) = false := by
      unfold matchesResource
      rw [hneedle, hres]
      simp only [List.any_cons, List.any_nil, Bool.or_false]
      have h1 : (gr.resource == ResourceAll) = false := by
        simp [hstar]
      have h2 : (gr.resource == gr.resource ++ "/" ++ action.subResource) = false := by
        simp [self_ne_append_slash]
      rw [h1, h2]
      rfl
    simp [this]

/-- Rule of the `MatchesClusterRole` matcher test: `update` on
`deployments/scale` in the `extensions` group. -/
def scaleRule : PolicyRule :=
  { verbs := ["update"], apiGroups := ["extensions"], resources := ["deployments/scale"] }

/-- Action of the `MatchesClusterRole` matcher test: `update` with the
`scale` sub-resource. -/
def scaleAction : Action := { verb := "update", subResource := "scale" }

/-- The resolved group-resource for `deployments` in `extensions`. -/
def deploymentsExtGR : GroupResource := { group := "extensions", resource := "deployments" }

/-- Witness for C2 at the `update deployments/scale` test data. -/
theorem c2_subresource_discipline_witness :
    (ruleMatches scaleRule scaleAction deploymentsExtGR = true →
      ResourceAll ∈ scaleRule.resources ∨
        (deploymentsExtGR.resource ++ "/" ++ scaleAction.subResource) ∈ scaleRule.resources) ∧
    (deploymentsExtGR.resource ≠ ResourceAll →
      scaleRule.resources = [deploymentsExtGR.resource] →
      ruleMatches scaleRule scaleAction deploymentsExtGR = false) :=
  c2_subresource_discipline scaleRule scaleAction deploymentsExtGR (by decide) (by decide)

/-- C7: for an action with a non-empty non-resource URL, a rule matches iff
some rule verb equals `"*"` or the action verb and some listed URL equals
the action URL exactly; the rule's API groups, resources and resource names
(and the resolved group-resource) are never consulted. -/
theorem c7_non_resource_url (rule : PolicyRule) (action : Action) (gr : GroupResource)
    (hurl : action.nonResourceURL ≠ "") :
    (ruleMatches rule action gr = true ↔
      ((∃ v ∈ rule.verbs, v = VerbAll ∨ v = action.verb) ∧
        action.nonResourceURL ∈ rule.nonResourceURLs)) ∧
    (∀ (groups resources names : List String) (gr2 : GroupResource),
      ruleMatches
          { rule with apiGroups := groups, resources := resources, resourceNames := names }
          action gr2 =
        ruleMatches rule action gr) := by
  constructor
  · unfold ruleMatches matchesVerb matchesNonResourceURL
    simp [hurl, List.any_eq_true]
  · intro groups resources names gr2
    unfold ruleMatches matchesVerb matchesNonResourceURL
    simp [hurl]

/-- Rule of matcher-test scenario J: `get` on the non-resource URL `/logs`. -/
def logsRule : PolicyRule := { verbs := ["get"], nonResourceURLs := ["/logs"] }

/-- Action of matcher-test scenario J: `get /logs`. -/
def logsAction : Action := { verb := "get", nonResourceURL := "/logs" }

/-- Witness for C7 at the data of matcher-test scenario J. -/
theorem c7_non_resource_url_witness :
    (ruleMatches logsRule logsAction {} = true ↔
      ((∃ v ∈ logsRule.verbs, v = VerbAll ∨ v = logsAction.verb) ∧
        logsAction.nonResourceURL ∈ logsRule.nonResourceURLs)) ∧
    (∀ (groups resources names : List String) (gr2 : GroupResource),
      ruleMatches
          { logsRule with apiGroups := groups, resources := resources, resourceNames := names }
          logsAction gr2 =
        ruleMatches logsRule logsAction {}) :=
  c7_non_resource_url logsRule logsAction {} (by decide)

/-! ## Namespace validator (`namespace_validator.go`) -/

/-- The phase of an active namespace, `core.NamespaceActive`. -/
def NamespaceActive : String := "Active"

/-- A `core.Namespace` object: only the status phase matters here. -/
structure NamespaceObject where
  name : String := ""
  phase : String := ""
  deriving DecidableEq

/-- Outcome of `client.Get` for a namespace: the object, a status error
with reason NotFound, or any other error. -/
inductive NamespaceGetResult where
  | ok (ns : NamespaceObject)
  | notFound
  | otherError (msg : String)
  deriving DecidableEq

/-- Embeds `namespaceValidator.Validate`, with the API `Get` call abstracted as a
function from names to `NamespaceGetResult`. -/
def Validate (get : String → NamespaceGetResult) (name : String) : Except String Unit :=
  if name != NamespaceAll then
    match get name with
    | NamespaceGetResult.notFound =>
        Except.error ("\"" ++ name ++ "\" not found")
    | NamespaceGetResult.otherError msg =>
        Except.error ("getting namespace: " ++ msg)
    | NamespaceGetResult.ok ns =>
        if ns.phase != NamespaceActive then
          Except.error ("invalid status: " ++ ns.phase)
        else
          Except.ok ()
  else
    Except.ok ()

/-- C8: the namespace validator short-circuits the empty name to success
without consulting the server; a named namespace validates successfully iff
the fetch returns it with the Active phase; a not-found fetch yields
`"<name>" not found`; an existing namespace in another phase yields
`invalid status: <phase>`; any other fetch error is wrapped with the
`getting namespace:` prefix. -/
theorem c8_namespace_validator (get : String → NamespaceGetResult) (name : String)
    (ns : NamespaceObject) (msg : String) :
    (Validate get "" = Except.ok ()) ∧
    (name ≠ "" →
      (Validate get name = Except.ok () ↔
        ∃ nsObj, get name = NamespaceGetResult.ok nsObj ∧ nsObj.phase = NamespaceActive)) ∧
    (name ≠ "" → get name = NamespaceGetResult.notFound →
      Validate get name = Except.error ("\"" ++ name ++ "\" not found")) ∧
    (name ≠ "" → get name = NamespaceGetResult.ok ns → ns.phase ≠ NamespaceActive →
      Validate get name = Except.error ("invalid status: " ++ ns.phase)) ∧
    (name ≠ "" → get name = NamespaceGetResult.otherError msg →
      Validate get name = Except.error ("getting namespace: " ++ msg)) := by
  refine ⟨?_, ?_, ?_, ?_, ?_⟩
  · rfl
  · intro hname
    unfold Validate
    simp only [NamespaceAll, bne_iff_ne, ne_eq, hname, not_false_eq_true, if_true]
    cases hget : get name with
    | ok nsObj =>
      by_cases hphase : nsObj.phase = NamespaceActive
      · simp [hphase, hget]
      · simp [hphase, hget]
    | notFound => simp [hget]
    | otherError m => simp [hget]
  · intro hname hget
    unfold Validate
    simp [NamespaceAll, hname, hget]
  · intro hname hget hphase
    unfold Validate
    simp [NamespaceAll, hname, hget, hphase]
  · intro hname hget
    unfold Validate
    simp [NamespaceAll, hname, hget]

/-- A concrete namespace `Get` stub: `foo` exists and is active, `gone` is
not found, `term` is terminating, anything else errors. -/
def sampleNamespaceGet : String → NamespaceGetResult := fun name =>
  if name == "foo" then NamespaceGetResult.ok { name := "foo", phase := "Active" }
  else if name == "gone" then NamespaceGetResult.notFound
  else if name == "term" then NamespaceGetResult.ok { name := "term", phase := "Terminating" }
  else NamespaceGetResult.otherError "boom"

/-- Witness for C8: the validator accepts the active namespace `foo`. -/
theorem c8_namespace_validator_witness :
    Validate sampleNamespaceGet "foo" = Except.ok () :=
  ((c8_namespace_validator sampleNamespaceGet "foo" {} "").2.1 (by decide)).mpr
    ⟨{ name := "foo", phase := "Active" }, by decide, rfl⟩

/-! ## Resource resolver

The resolver version these claims describe (`pkg/cmd/resource_resolver.go`
with the wildcard bypass, the `GroupResource` result and the
`use`/`podsecuritypolicies` special case) is absent from the sources — only
older snapshots and its test file are present — so it is modelled from the
spec below. -/

/-- A discovered `v1.APIResource`: API group, canonical plural name (for a
sub-resource entry the composite `plural/sub` name) and advertised verbs. -/
structure APIResourceInfo where
  group : String := ""
  name : String := ""
  verbs : List String := []
  deriving DecidableEq

/-- Lookup in the discovery index built by `indexResources`, keyed by
resource name (plural, short names and `plural/sub` composites). -/
def indexLookup (index : List (String × APIResourceInfo)) (key : String) :
    Option APIResourceInfo :=
  match index with
  | [] => none
  | (k, r) :: rest => if k == key then some r else indexLookup rest key

/-- Modelled from the spec: `resourceResolver.isVerbSupportedBy` of the
missing current `resource_resolver.go`.  The wildcard verb is accepted
unconditionally, `use` against `podsecuritypolicies` is accepted even when
not advertised, and otherwise the verb must be among the advertised ones. -/
def isVerbSupportedBy (verb : String) (resource : APIResourceInfo) : Bool :=
  if verb == VerbAll then true
  else if verb == "use" && resource.name == "podsecuritypolicies" then true
  else resource.verbs.contains verb

/-- Go `%v` rendering of a string slice, used in the verb error message. -/
def joinSpace : List String → String
  | [] => ""
  | [v] => v
  | v :: rest => v ++ " " ++ joinSpace rest

/-- The `the server doesn't have a resource type ...` error text. -/
def noResourceTypeMsg (resource subResource : String) : String :=
  "the server doesn't have a resource type \"" ++
    (if subResource != "" then resource ++ "/" ++ subResource else resource) ++ "\""

/-- The `... does not support the ... verb` error text. -/
def verbNotSupportedMsg (name verb : String) (verbs : List String) : String :=
  "the \"" ++ name ++ "\" resource does not support the \"" ++ verb ++
    "\" verb, only [" ++ joinSpace verbs ++ "]"

/-- Modelled from the spec: `resourceResolver.Resolve` of the missing
current `resource_resolver.go`.  The discovery index is passed as an
association list and the REST mapper (including the dot-splitting of a
group-qualified argument) as a function from the typed resource argument to
the canonical group and plural, `none` denoting mapping failure. -/
def Resolve (index : List (String × APIResourceInfo))
    (mapper : String → Option GroupResource)
    (verb resource subResource : String) : Except String GroupResource :=
  if resource == ResourceAll then
    Except.ok { group := "", resource := ResourceAll }
  else
    match mapper resource with
    | none => Except.error (noResourceTypeMsg resource subResource)
    | some gvr =>
      match indexLookup index
          (if subResource != "" then gvr.resource ++ "/" ++ subResource else gvr.resource) with
      | none => Except.error (noResourceTypeMsg resource subResource)
      | some apiRes =>
        if isVerbSupportedBy verb apiRes then
          Except.ok { group := gvr.group, resource := gvr.resource }
        else
          Except.error (verbNotSupportedMsg apiRes.name verb apiRes.verbs)

/-- C3: resolving the wildcard resource `"*"` returns
`GroupResource{resource: "*"}` for every verb and sub-resource, independent
of the discovery index and the REST mapper — no lookup, mapping or verb
validation takes place. -/
theorem c3_wildcard_resource (index : List (String × APIResourceInfo))
    (mapper : String → Option GroupResource) (verb subResource : String) :
    Resolve index mapper verb ResourceAll subResource =
      Except.ok { group := "", resource := ResourceAll } := by
  simp [Resolve]

/-- C6: the resolver accepts the wildcard verb unconditionally, accepts
`use` against `podsecuritypolicies` regardless of the advertised verbs, and
rejects any other unadvertised verb with exactly the
`the "<plural>" resource does not support the "<verb>" verb, only <verbs>`
error built from the canonical plural name. -/
theorem c6_verb_validation (r : APIResourceInfo) (verb : String) :
    (isVerbSupportedBy VerbAll r = true) ∧
    (r.name = "podsecuritypolicies" → isVerbSupportedBy "use" r = true) ∧
    (verb ≠ VerbAll → (verb = "use" → r.name ≠ "podsecuritypolicies") →
      r.verbs.contains verb = false →
      ∀ (index : List (String × APIResourceInfo))
        (mapper : String → Option GroupResource)
        (resourceArg subResource : String) (gvr : GroupResource),
        resourceArg ≠ ResourceAll →
        mapper resourceArg = some gvr →
        indexLookup index
            (if subResource != "" then gvr.resource ++ "/" ++ subResource else gvr.resource) =
          some r →
        Resolve index mapper verb resourceArg subResource =
          Except.error ("the \"" ++ r.name ++ "\" resource does not support the \"" ++
            verb ++ "\" verb, only [" ++ joinSpace r.verbs ++ "]")) := by
  refine ⟨?_, ?_, ?_⟩
  · simp [isVerbSupportedBy]
  · intro hpsp
    simp [isVerbSupportedBy, hpsp, VerbAll]
  · intro hstar huse hverbs index mapper resourceArg subResource gvr harg hmap hidx
    have hv : verb ∉ r.verbs := by simpa using hverbs
    have hsupp : isVerbSupportedBy verb r = false := by
      unfold isVerbSupportedBy
      by_cases h2 : verb = "use"
      · simp [hstar, h2, huse h2, VerbAll]
        exact h2 ▸ hv
      · simp [h2, VerbAll]
        exact ⟨hstar, hv⟩
    unfold Resolve
    have h0 : (resourceArg == ResourceAll) = false := by simp [harg]
    simp only [h0, Bool.false_eq_true, if_false, hmap, hidx, hsupp, verbNotSupportedMsg]

/-- The `podsecuritypolicies` discovery entry of the resolver test. -/
def pspInfo : APIResourceInfo :=
  { group := "policy", name := "podsecuritypolicies", verbs := ["list", "get"] }

/-- The REST-mapper stub of the resolver test: `psp` maps to
`policy/podsecuritypolicies`. -/
def pspMapper : String → Option GroupResource := fun s =>
  if s == "psp" then some { group := "policy", resource := "podsecuritypolicies" } else none

/-- Witness for C6 at the resolver test's unsupported-psp-verb case:
`cook psp` fails with the advertised-verbs error message. -/
theorem c6_verb_validation_witness :
    Resolve [("podsecuritypolicies", pspInfo)] pspMapper "cook" "psp" "" =
      Except.error
        "the \"podsecuritypolicies\" resource does not support the \"cook\" verb, only [list get]" :=
  (c6_verb_validation pspInfo "cook").2.2 (by decide) (by decide) (by decide)
    [("podsecuritypolicies", pspInfo)] pspMapper "psp" ""
    { group := "policy", resource := "podsecuritypolicies" }
    (by decide) (by decide) (by decide)

/-! ## Action builder (`ActionFrom` in `list.go`) -/

/-- The flag values `ActionFrom` reads (`--subresource`, `--all-namespaces`
and `--namespace`; the Go `GetString`/`GetBool` lookups are total here). -/
structure Flags where
  subResource : String := ""
  allNamespaces : Bool := false
  ns : String := ""
  deriving DecidableEq

/-- Does the string start with a slash (`strings.HasPrefix(arg, "/")`)? -/
def startsWithSlash (s : String) : Bool :=
  match s.data with
  | [] => false
  | c :: _ => c == '/'

/-- Embeds `strings.SplitN(s, "/", 2)` on the character list: the part before the
first slash, and — when a slash occurs — the remainder after it. -/
def splitFirstSlash : List Char → List Char × Option (List Char)
  | [] => ([], none)
  | c :: cs =>
    if c == '/' then ([], some cs)
    else
      let p := splitFirstSlash cs
      (c :: p.1, p.2)

/-- Embeds `ActionFrom` in `list.go`.  The kubeconfig context namespace lookup
(`clientConfig.Namespace()`) is abstracted as an `Except` value. -/
def ActionFrom (contextNamespace : Except String String) (flags : Flags)
    (args : List String) : Except String Action :=
  match args with
  | arg0 :: arg1 :: _ =>
    let base : Action :=
      if startsWithSlash arg1 then
        { verb := arg0, nonResourceURL := arg1 }
      else
        let p := splitFirstSlash arg1.data
        { verb := arg0, resource := ⟨p.1⟩,
          resourceName := match p.2 with | some rest => (⟨rest⟩ : String) | none => "" }
    let withFlags : Action :=
      { base with subResource := flags.subResource, allNamespaces := flags.allNamespaces }
    if withFlags.allNamespaces then
      Except.ok { withFlags with ns := NamespaceAll }
    else if flags.ns != "" then
      Except.ok { withFlags with ns := flags.ns }
    else
      match contextNamespace with
      | Except.error e => Except.error ("getting namespace from current context: " ++ e)
      | Except.ok n => Except.ok { withFlags with ns := n }
  | _ => Except.error "you must specify two or three arguments: verb, resource, and optional resourceName"

/-! ## WhoCan orchestrator (`list.go`) -/

/-- The collaborators of the `WhoCan` struct: every API round-trip is a
function-valued field returning `Except String` (transport errors), and the
namespace validator and resource resolver keep their interfaces. -/
structure WhoCan where
  namespacesList : Except String (List String) := Except.ok []
  rolesList : String → Except String (List Role) := fun _ => Except.ok []
  clusterRolesList : Except String (List ClusterRole) := Except.ok []
  roleBindingsList : String → Except String (List RoleBinding) := fun _ => Except.ok []
  clusterRoleBindingsList : Except String (List ClusterRoleBinding) := Except.ok []
  validateNamespace : String → Except String Unit := fun _ => Except.ok ()
  resolve : String → String → String → Except String GroupResource :=
    fun _ _ _ => Except.ok {}
  isAllowedTo : String → String → String → Except String Bool :=
    fun _ _ _ => Except.ok true

/-- Embeds `WhoCan.validate`: reject `--subresource` together with a non-resource
URL, then validate the namespace. -/
def validate (w : WhoCan) (action : Action) : Except String Unit :=
  if action.nonResourceURL != "" && action.subResource != "" then
    Except.error "--subresource cannot be used with NONRESOURCEURL"
  else
    match w.validateNamespace action.ns with
    | Except.error e => Except.error ("validating namespace: " ++ e)
    | Except.ok _ => Except.ok ()

/-- The name-collecting loop shared by `getRolesFor`: append each matching,
not yet collected role name (the Go code inserts into a `map[string]struct`;
an order-preserving duplicate-free list stands for that set). -/
def collectRoleNames (a : ResolvedAction) (items : List Role) : List String :=
  items.foldl
    (fun acc item =>
      if MatchesRole item a.action a.gr && !(acc.contains item.name) then acc ++ [item.name]
      else acc)
    []

/-- The name-collecting loop of `getClusterRolesFor`. -/
def collectClusterRoleNames (a : ResolvedAction) (items : List ClusterRole) : List String :=
  items.foldl
    (fun acc item =>
      if MatchesClusterRole item a.action a.gr && !(acc.contains item.name) then acc ++ [item.name]
      else acc)
    []

/-- Embeds `WhoCan.getRolesFor`: list the Roles of the action's namespace and keep
the names of those whose rules match. -/
def getRolesFor (w : WhoCan) (a : ResolvedAction) : Except String (List String) :=
  match w.rolesList a.action.ns with
  | Except.error e => Except.error e
  | Except.ok items => Except.ok (collectRoleNames a items)

/-- Embeds `WhoCan.getClusterRolesFor`: list all ClusterRoles and keep the names of
those whose rules match. -/
def getClusterRolesFor (w : WhoCan) (a : ResolvedAction) : Except String (List String) :=
  match w.clusterRolesList with
  | Except.error e => Except.error e
  | Except.ok items => Except.ok (collectClusterRoleNames a items)

/-- The retention loop of `WhoCan.getRoleBindings`: keep a binding whose
`RoleRef.Kind` is `Role` and whose name is among the matched role names, or
whose kind is `ClusterRole` and whose name is among the matched cluster-role
names. -/
def filterRoleBindings (roleNames clusterRoleNames : List String) :
    List RoleBinding → List RoleBinding
  | [] => []
  | rb :: rest =>
    if rb.roleRef.kind == RoleKind then
      if roleNames.contains rb.roleRef.name then
        rb :: filterRoleBindings roleNames clusterRoleNames rest
      else filterRoleBindings roleNames clusterRoleNames rest
    else if rb.roleRef.kind == ClusterRoleKind then
      if clusterRoleNames.contains rb.roleRef.name then
        rb :: filterRoleBindings roleNames clusterRoleNames rest
      else filterRoleBindings roleNames clusterRoleNames rest
    else filterRoleBindings roleNames clusterRoleNames rest

/-- Embeds `WhoCan.getRoleBindings`: in all-namespaces mode return the empty slice
without listing anything; otherwise list the namespace's RoleBindings and
retain the ones referring to a matched role. -/
def getRoleBindings (w : WhoCan) (a : ResolvedAction)
    (roleNames clusterRoleNames : List String) : Except String (List RoleBinding) :=
  if a.action.ns == NamespaceAll then Except.ok []
  else
    match w.roleBindingsList a.action.ns with
    | Except.error e => Except.error e
    | Except.ok items => Except.ok (filterRoleBindings roleNames clusterRoleNames items)

/-- The retention loop of `WhoCan.getClusterRoleBindings`: keep a binding
iff its `RoleRef.Name` is among the matched cluster-role names. -/
def filterClusterRoleBindings (clusterRoleNames : List String) :
    List ClusterRoleBinding → List ClusterRoleBinding
  | [] => []
  | rb :: rest =>
    if clusterRoleNames.contains rb.roleRef.name then
      rb :: filterClusterRoleBindings clusterRoleNames rest
    else filterClusterRoleBindings clusterRoleNames rest

/-- Embeds `WhoCan.getClusterRoleBindings`: list all ClusterRoleBindings and retain
the ones referring to a matched ClusterRole name. -/
def getClusterRoleBindings (w : WhoCan) (clusterRoleNames : List String) :
    Except String (List ClusterRoleBinding) :=
  match w.clusterRoleBindingsList with
  | Except.error e => Except.error e
  | Except.ok items => Except.ok (filterClusterRoleBindings clusterRoleNames items)

/-- Embeds `WhoCan.Check`: validate, resolve the resource when one is given, filter
roles and cluster roles, then their bindings. -/
def Check (w : WhoCan) (action : Action) :
    Except String (List RoleBinding × List ClusterRoleBinding) :=
  match validate w action with
  | Except.error e => Except.error ("validation: " ++ e)
  | Except.ok _ =>
    match
      (if action.resource != "" then
        match w.resolve action.verb action.resource action.subResource with
        | Except.error e => Except.error ("resolving resource: " ++ e)
        | Except.ok gr => Except.ok gr
      else Except.ok {}) with
    | Except.error e => Except.error e
    | Except.ok gr =>
      match getRolesFor w { action := action, gr := gr } with
      | Except.error e => Except.error ("getting Roles: " ++ e)
      | Except.ok roleNames =>
        match getClusterRolesFor w { action := action, gr := gr } with
        | Except.error e => Except.error ("getting ClusterRoles: " ++ e)
        | Except.ok clusterRoleNames =>
          match getRoleBindings w { action := action, gr := gr } roleNames clusterRoleNames with
          | Except.error e => Except.error ("getting RoleBindings: " ++ e)
          | Except.ok roleBindings =>
            match getClusterRoleBindings w clusterRoleNames with
            | Except.error e => Except.error ("getting ClusterRoleBindings: " ++ e)
            | Except.ok clusterRoleBindings => Except.ok (roleBindings, clusterRoleBindings)

/-- The local `check` struct of `WhoCan.CheckAPIAccess`: one
self-subject-access-review probe. -/
structure AccessCheck where
  verb : String
  resource : String
  ns : String
  deriving DecidableEq

/-- The warning text for a denied probe: with or without the
`in the <ns> namespace` suffix, depending on the probe's namespace. -/
def warningMessage (c : AccessCheck) : String :=
  if c.ns == "" then
    "The user is not allowed to " ++ c.verb ++ " " ++ c.resource
  else
    "The user is not allowed to " ++ c.verb ++ " " ++ c.resource ++ " in the " ++
      c.ns ++ " namespace"

/-- The probe loop of `CheckAPIAccess`: run the checks in order, abort on a
transport error, and append one warning per denied probe. -/
def runAccessChecks (isAllowedTo : String → String → String → Except String Bool) :
    List AccessCheck → List String → Except String (List String)
  | [], warnings => Except.ok warnings
  | c :: rest, warnings =>
    match isAllowedTo c.verb c.resource c.ns with
    | Except.error e => Except.error e
    | Except.ok allowed =>
      runAccessChecks isAllowedTo rest
        (if !allowed then warnings ++ [warningMessage c] else warnings)

/-- Embeds `WhoCan.CheckAPIAccess`: in all-namespaces mode probe `list namespaces`
and, per listed namespace, `list roles` and `list rolebindings`; in
single-namespace mode probe `list roles` and `list rolebindings` there. -/
def CheckAPIAccess (w : WhoCan) (action : Action) : Except String (List String) :=
  if action.ns == "" then
    match w.namespacesList with
    | Except.error e => Except.error ("listing namespaces: " ++ e)
    | Except.ok names =>
      runAccessChecks w.isAllowedTo
        (names.foldl
          (fun acc n =>
            acc ++ [{ verb := "list", resource := "roles", ns := n },
              { verb := "list", resource := "rolebindings", ns := n }])
          [{ verb := "list", resource := "namespaces", ns := "" }])
        []
  else
    runAccessChecks w.isAllowedTo
      [{ verb := "list", resource := "roles", ns := action.ns },
        { verb := "list", resource := "rolebindings", ns := action.ns }]
      []

/-! ## Claim theorems about the orchestrator -/

/-- C4: for an action in all-namespaces mode (empty namespace), `Check`
returns an empty `roleBindings` slice, and `getRoleBindings` short-circuits
to the empty list without consulting the RoleBinding lister at all. -/
theorem c4_all_namespaces (w : WhoCan) (action : Action) (hns : action.ns = "") :
    (∀ rbs crbs, Check w action = Except.ok (rbs, crbs) → rbs = []) ∧
    (∀ (a : ResolvedAction) (roleNames clusterRoleNames : List String),
      a.action.ns = "" →
      getRoleBindings w a roleNames clusterRoleNames = Except.ok []) := by
  have hrb : ∀ (a : ResolvedAction) (rn cn : List String), a.action.ns = "" →
      getRoleBindings w a rn cn = Except.ok [] := by
    intro a rn cn ha
    unfold getRoleBindings
    simp [ha, NamespaceAll]
  refine ⟨?_, hrb⟩
  intro rbs crbs h
  have hrb2 : ∀ (gr : GroupResource) (rn cn : List String),
      getRoleBindings w { action := action, gr := gr } rn cn = Except.ok [] :=
    fun gr rn cn => hrb _ rn cn hns
  unfold Check at h
  repeat' split at h
  all_goals simp_all [hrb2]

/-- Witness action for C4: `get /logs` across all namespaces. -/
def allNamespacesAction : Action := { verb := "get", nonResourceURL := "/logs" }

/-- Witness for C4 at a default collaborator environment. -/
theorem c4_all_namespaces_witness :
    (∀ rbs crbs, Check {} allNamespacesAction = Except.ok (rbs, crbs) → rbs = []) ∧
    (∀ (a : ResolvedAction) (roleNames clusterRoleNames : List String),
      a.action.ns = "" →
      getRoleBindings {} a roleNames clusterRoleNames = Except.ok []) :=
  c4_all_namespaces {} allNamespacesAction rfl

/-- The action built by `ActionFrom` from `get /logs` with
`--subresource=log` and `--namespace=ns1`. -/
def urlSubresourceAction : Action :=
  { verb := "get", nonResourceURL := "/logs", subResource := "log", ns := "ns1" }

/-- C5, counterexample: `ActionFrom` copies the `--subresource` flag into
the action unconditionally, so `get /logs --subresource=log -n ns1`
constructs (without error) an `Action` whose `nonResourceURL` and
`subResource` are both non-empty — the claimed exclusivity invariant does
not hold for every combination of arguments and flags. -/
theorem c5_counterexample :
    ActionFrom (Except.ok "default") { subResource := "log", ns := "ns1" } ["get", "/logs"] =
      Except.ok urlSubresourceAction ∧
    urlSubresourceAction.nonResourceURL ≠ "" ∧
    urlSubresourceAction.subResource ≠ "" := by
  refine ⟨rfl, ?_, ?_⟩ <;> decide

/-- C5 (amended): an `Action` built by `ActionFrom` with a non-empty
`nonResourceURL` always has empty `resource` and `resourceName`; its
`subResource` is whatever the `--subresource` flag held, and when that is
non-empty the action is rejected by `validate` with
`--subresource cannot be used with NONRESOURCEURL` before any lookup. -/
theorem c5_url_exclusivity (contextNamespace : Except String String) (flags : Flags)
    (args : List String) (act : Action)
    (h : ActionFrom contextNamespace flags args = Except.ok act)
    (hurl : act.nonResourceURL ≠ "") :
    act.resource = "" ∧ act.resourceName = "" ∧ act.subResource = flags.subResource ∧
    (act.subResource ≠ "" →
      ∀ w : WhoCan,
        validate w act = Except.error "--subresource cannot be used with NONRESOURCEURL") := by
  rcases args with - | ⟨arg0, - | ⟨arg1, rest⟩⟩
  · exact absurd h (by simp [ActionFrom])
  · exact absurd h (by simp [ActionFrom])
  · simp only [ActionFrom] at h
    by_cases hsw : startsWithSlash arg1 = true
    · have hfin : ∀ n : String,
          (Except.ok { verb := arg0, resource := "", resourceName := "",
                       subResource := flags.subResource, nonResourceURL := arg1, ns := n,
                       allNamespaces := flags.allNamespaces } : Except String Action) =
            Except.ok act →
          act.resource = "" ∧ act.resourceName = "" ∧ act.subResource = flags.subResource ∧
          (act.subResource ≠ "" →
            ∀ w : WhoCan,
              validate w act =
                Except.error "--subresource cannot be used with NONRESOURCEURL") := by
        intro n hn
        injection hn with h1
        subst h1
        refine ⟨rfl, rfl, rfl, ?_⟩
        intro hs w
        have hu : arg1 ≠ "" := hurl
        have hs' : flags.subResource ≠ "" := hs
        unfold validate
        simp [hu, hs']
      repeat' split at h
      all_goals
        first
          | exact absurd h (fun hc => Except.noConfusion hc)
          | exact hfin _ h
    · have hfin : ∀ (res rn n : String),
          (Except.ok { verb := arg0, resource := res, resourceName := rn,
                       subResource := flags.subResource, nonResourceURL := "", ns := n,
                       allNamespaces := flags.allNamespaces } : Except String Action) =
            Except.ok act →
          False := by
        intro res rn n hn
        injection hn with h1
        subst h1
        exact hurl rfl
      exfalso
      repeat' split at h
      all_goals
        first
          | exact Except.noConfusion h
          | exact hfin _ _ _ h

/-- Witness for C5 (amended) at the counterexample input. -/
theorem c5_url_exclusivity_witness :
    urlSubresourceAction.resource = "" ∧ urlSubresourceAction.resourceName = "" ∧
    urlSubresourceAction.subResource = "log" ∧
    (urlSubresourceAction.subResource ≠ "" →
      ∀ w : WhoCan,
        validate w urlSubresourceAction =
          Except.error "--subresource cannot be used with NONRESOURCEURL") :=
  c5_url_exclusivity (Except.ok "default") { subResource := "log", ns := "ns1" }
    ["get", "/logs"] urlSubresourceAction rfl (by decide)

/-- C9: for a single non-empty namespace, `CheckAPIAccess` runs exactly the
two probes `list roles` and `list rolebindings` in that namespace, in that
order; a probe transport error aborts with that error; each denied probe
contributes exactly one warning with the `in the <ns> namespace` suffix, in
probe order; and when both probes are allowed the warning list is empty. -/
theorem c9_check_api_access (w : WhoCan) (action : Action) (hns : action.ns ≠ "") :
    (CheckAPIAccess w action =
      runAccessChecks w.isAllowedTo
        [{ verb := "list", resource := "roles", ns := action.ns },
          { verb := "list", resource := "rolebindings", ns := action.ns }] []) ∧
    (∀ e, w.isAllowedTo "list" "roles" action.ns = Except.error e →
      CheckAPIAccess w action = Except.error e) ∧
    (∀ b e, w.isAllowedTo "list" "roles" action.ns = Except.ok b →
      w.isAllowedTo "list" "rolebindings" action.ns = Except.error e →
      CheckAPIAccess w action = Except.error e) ∧
    (∀ b1 b2, w.isAllowedTo "list" "roles" action.ns = Except.ok b1 →
      w.isAllowedTo "list" "rolebindings" action.ns = Except.ok b2 →
      CheckAPIAccess w action = Except.ok
        ((if b1 then []
          else ["The user is not allowed to list roles in the " ++ action.ns ++ " namespace"]) ++
          (if b2 then []
          else ["The user is not allowed to list rolebindings in the " ++ action.ns ++
            " namespace"]))) := by
  have hbranch : CheckAPIAccess w action =
      runAccessChecks w.isAllowedTo
        [{ verb := "list", resource := "roles", ns := action.ns },
          { verb := "list", resource := "rolebindings", ns := action.ns }] [] := by
    unfold CheckAPIAccess
    simp [hns]
  refine ⟨hbranch, ?_, ?_, ?_⟩
  · intro e he
    rw [hbranch]
    simp [runAccessChecks, he]
  · intro b e hroles hrb
    rw [hbranch]
    simp [runAccessChecks, hroles, hrb]
  · intro b1 b2 hroles hrb
    rw [hbranch]
    cases b1 <;> cases b2 <;>
      simp [runAccessChecks, hroles, hrb, warningMessage, hns]

/-- A `WhoCan` environment whose identity may list everything. -/
def fullAccessWho : WhoCan := { isAllowedTo := fun _ _ _ => Except.ok true }

/-- Witness action for C9: a query in the `foo` namespace. -/
def fooNamespaceAction : Action := { verb := "get", resource := "pods", ns := "foo" }

/-- Witness for C9: an identity with full read rights gets no warnings. -/
theorem c9_check_api_access_witness :
    CheckAPIAccess fullAccessWho fooNamespaceAction = Except.ok [] :=
  (c9_check_api_access fullAccessWho fooNamespaceAction (by decide)).2.2.2 true true rfl rfl

/-- C10: `getClusterRoleBindings` retains a listed `ClusterRoleBinding`
solely by membership of its `RoleRef.Name` in the matched cluster-role name
set; `RoleRef.Kind` is never inspected, so rewriting every binding's kind
arbitrarily leaves the retained set unchanged. -/
theorem c10_cluster_role_binding_filter (w : WhoCan) (clusterRoleNames : List String)
    (items : List ClusterRoleBinding) (rb : ClusterRoleBinding)
    (h : w.clusterRoleBindingsList = Except.ok items) :
    (getClusterRoleBindings w clusterRoleNames =
      Except.ok (filterClusterRoleBindings clusterRoleNames items)) ∧
    (rb ∈ filterClusterRoleBindings clusterRoleNames items ↔
      rb ∈ items ∧ clusterRoleNames.contains rb.roleRef.name = true) ∧
    (∀ k : String,
      filterClusterRoleBindings clusterRoleNames
          (items.map fun b => { b with roleRef := { b.roleRef with kind := k } }) =
        (filterClusterRoleBindings clusterRoleNames items).map
          fun b => { b with roleRef := { b.roleRef with kind := k } }) := by
  refine ⟨by simp [getClusterRoleBindings, h], ?_, ?_⟩
  · clear h
    induction items with
    | nil => simp [filterClusterRoleBindings]
    | cons x xs ih =>
      by_cases hx : clusterRoleNames.contains x.roleRef.name = true
      · simp only [filterClusterRoleBindings, hx, if_true, List.mem_cons, ih]
        constructor
        · rintro (rfl | ⟨hm, hc⟩)
          · exact ⟨Or.inl rfl, hx⟩
          · exact ⟨Or.inr hm, hc⟩
        · rintro ⟨rfl | hm, hc⟩
          · exact Or.inl rfl
          · exact Or.inr ⟨hm, hc⟩
      · have hx' : clusterRoleNames.contains x.roleRef.name = false :=
          Bool.not_eq_true _ ▸ hx
        simp only [filterClusterRoleBindings, hx', Bool.false_eq_true, if_false,
          List.mem_cons, ih]
        constructor
        · rintro ⟨hm, hc⟩
          exact ⟨Or.inr hm, hc⟩
        · rintro ⟨rfl | hm, hc⟩
          · rw [hx'] at hc
            exact Bool.noConfusion hc
          · exact ⟨hm, hc⟩
  · clear h
    intro k
    induction items with
    | nil => simp [filterClusterRoleBindings]
    | cons x xs ih =>
      by_cases hx2 : x.roleRef.name ∈ clusterRoleNames
      · simp [filterClusterRoleBindings, hx2, ih]
      · simp [filterClusterRoleBindings, hx2, ih]

/-- The `get-logs` ClusterRoleBinding of the `GetClusterRoleBindings` test:
its `RoleRef.Kind` is the bogus `ClusterRoleBinding`. -/
def getLogsBnd : ClusterRoleBinding :=
  { name := "get-logs-bnd", roleRef := { kind := "ClusterRoleBinding", name := "get-logs" } }

/-- The `get-healthz` ClusterRoleBinding of the `GetClusterRoleBindings`
test, also with the bogus kind `ClusterRoleBinding`. -/
def getHealthzBnd : ClusterRoleBinding :=
  { name := "get-healthz-bnd", roleRef := { kind := "ClusterRoleBinding", name := "get-healthz" } }

/-- The environment of the `GetClusterRoleBindings` test: the lister yields
the two bindings above. -/
def crbWho : WhoCan := { clusterRoleBindingsList := Except.ok [getLogsBnd, getHealthzBnd] }

/-- Witness for C10 at the `GetClusterRoleBindings` test data: the binding
whose `RoleRef.Kind` is not `ClusterRole` is still retained because its
`RoleRef.Name` is a matched cluster-role name. -/
theorem c10_cluster_role_binding_filter_witness :
    (getClusterRoleBindings crbWho ["get-healthz"] =
      Except.ok (filterClusterRoleBindings ["get-healthz"] [getLogsBnd, getHealthzBnd])) ∧
    (getHealthzBnd ∈ filterClusterRoleBindings ["get-healthz"] [getLogsBnd, getHealthzBnd] ↔
      getHealthzBnd ∈ [getLogsBnd, getHealthzBnd] ∧
        (["get-healthz"].contains getHealthzBnd.roleRef.name) = true) ∧
    (∀ k : String,
      filterClusterRoleBindings ["get-healthz"]
          ([getLogsBnd, getHealthzBnd].map fun b =>
            { b with roleRef := { b.roleRef with kind := k } }) =
        (filterClusterRoleBindings ["get-healthz"] [getLogsBnd, getHealthzBnd]).map
          fun b => { b with roleRef := { b.roleRef with kind := k } }) :=
  c10_cluster_role_binding_filter crbWho ["get-healthz"] [getLogsBnd, getHealthzBnd]
    getHealthzBnd rfl

end KubectlWhoCan
